import Mathlib

/-!
Shallow embedding of the scene/camera/collision core of the webgl-renderer
repository (src/js/main.js).  JavaScript numbers are modelled as real
numbers.  The IEEE-754 special values that the slab ray test can produce
(Infinity, -Infinity, NaN) are modelled explicitly by the `FVal` type, with
JavaScript division, Math.min, Math.max and comparison semantics.
Calls into the gl-matrix library (vec3.sub, vec3.normalize, vec3.dot,
vec3.scaleAndAdd, vec3.distance, the mat4 translation slots 12..14) are
embedded following the published gl-matrix semantics.  The WebGL plumbing
(buffers, shaders, textures, vertex arrays) is opaque to every claim and is
not modelled.
-/

open Classical

noncomputable section

/-- A gl-matrix vec3: three JavaScript numbers, modelled as reals. -/
@[ext]
structure Vec3 where
  x : ℝ
  y : ℝ
  z : ℝ

/-- Componentwise sum, as in gl-matrix vec3.add(out, a, b). -/
def vadd (a b : Vec3) : Vec3 := ⟨a.x + b.x, a.y + b.y, a.z + b.z⟩

/-- Componentwise difference, as in gl-matrix vec3.sub(out, a, b). -/
def vsub (a b : Vec3) : Vec3 := ⟨a.x - b.x, a.y - b.y, a.z - b.z⟩

/-- Componentwise scaling, as in gl-matrix vec3.scale: out = v * s. -/
def vscale (v : Vec3) (s : ℝ) : Vec3 := ⟨v.x * s, v.y * s, v.z * s⟩

/-- gl-matrix vec3.scaleAndAdd(out, a, b, s): out = a + b * s. -/
def vScaleAdd (a b : Vec3) (s : ℝ) : Vec3 :=
  ⟨a.x + b.x * s, a.y + b.y * s, a.z + b.z * s⟩

/-- gl-matrix vec3.dot(a, b). -/
def dot (a b : Vec3) : ℝ := a.x * b.x + a.y * b.y + a.z * b.z

/-- Length of a vector, the square root of the dot product with itself. -/
def vlen (v : Vec3) : ℝ := Real.sqrt (dot v v)

/-- gl-matrix vec3.normalize: compute the squared length; when it is
positive, scale by the reciprocal of its square root, otherwise scale by
the squared length itself (which is then zero), so the zero vector maps to
the zero vector instead of producing NaN. -/
def vec3normalize (v : Vec3) : Vec3 :=
  let len := v.x * v.x + v.y * v.y + v.z * v.z
  if 0 < len then vscale v (1 / Real.sqrt len) else vscale v len

/-- An axis-aligned bounding box, the shape stored in
SceneObject.boundingBox (src/js/main.js line 114). -/
@[ext]
structure AABB where
  min : Vec3
  max : Vec3

/-- A JavaScript number as consumed by the slab ray test: a finite real,
one of the two infinities, or NaN. -/
inductive FVal where
  | nan
  | ninf
  | pinf
  | fin (x : ℝ)

/-- A vector whose components may be infinite or NaN, as produced by
vec3.scaleAndAdd with an infinite or NaN scale. -/
@[ext]
structure FVec3 where
  x : FVal
  y : FVal
  z : FVal

/-- JavaScript division a / b for finite a and b: ordinary division when
b is nonzero, otherwise a signed infinity (or NaN for 0 / 0).  Negative
zero is not modelled; the repository never divides by a negative zero. -/
def fdiv (a b : ℝ) : FVal :=
  if b = 0 then (if 0 < a then .pinf else if a < 0 then .ninf else .nan)
  else .fin (a / b)

/-- JavaScript Math.min on two values: NaN propagates, otherwise the usual
minimum with the infinities at the ends of the order. -/
def fmin : FVal → FVal → FVal
  | .nan, _ => .nan
  | _, .nan => .nan
  | .ninf, _ => .ninf
  | _, .ninf => .ninf
  | .pinf, b => b
  | a, .pinf => a
  | .fin a, .fin b => .fin (min a b)

/-- JavaScript Math.max on two values: NaN propagates, otherwise the usual
maximum with the infinities at the ends of the order. -/
def fmax : FVal → FVal → FVal
  | .nan, _ => .nan
  | _, .nan => .nan
  | .pinf, _ => .pinf
  | _, .pinf => .pinf
  | .ninf, b => b
  | a, .ninf => a
  | .fin a, .fin b => .fin (max a b)

/-- The JavaScript strict comparison a < b: false whenever either side is
NaN, otherwise the order with -Infinity below and Infinity above every
finite value. -/
def flt : FVal → FVal → Prop
  | .nan, _ => False
  | _, .nan => False
  | .ninf, .ninf => False
  | .ninf, _ => True
  | _, .ninf => False
  | .pinf, _ => False
  | _, .pinf => True
  | .fin a, .fin b => a < b

/-- Multiplication of a finite real by a possibly special value, as in
vec3.scaleAndAdd: a finite times an infinity follows the sign rule, zero
times an infinity is NaN, and NaN propagates. -/
def fmulR (a : ℝ) (t : FVal) : FVal :=
  match t with
  | .fin x => .fin (a * x)
  | .nan => .nan
  | .pinf => if 0 < a then .pinf else if a < 0 then .ninf else .nan
  | .ninf => if 0 < a then .ninf else if a < 0 then .pinf else .nan

/-- Addition of a finite real to a possibly special value: a finite plus an
infinity keeps the infinity, and NaN propagates. -/
def faddR (a : ℝ) (t : FVal) : FVal :=
  match t with
  | .fin x => .fin (a + x)
  | t => t

/-- Subtraction of a finite real from a possibly special value. -/
def fsubR (t : FVal) (a : ℝ) : FVal :=
  match t with
  | .fin x => .fin (x - a)
  | t => t

/-- Squaring of a possibly special value: both infinities square to
Infinity and NaN propagates. -/
def fsq : FVal → FVal
  | .fin x => .fin (x * x)
  | .nan => .nan
  | _ => .pinf

/-- Addition of two possibly special values: opposite infinities give NaN,
and NaN propagates. -/
def faddF : FVal → FVal → FVal
  | .nan, _ => .nan
  | _, .nan => .nan
  | .pinf, .ninf => .nan
  | .ninf, .pinf => .nan
  | .pinf, _ => .pinf
  | _, .pinf => .pinf
  | .ninf, _ => .ninf
  | _, .ninf => .ninf
  | .fin a, .fin b => .fin (a + b)

/-- Math.sqrt on a possibly special value: NaN on negative inputs and on
NaN, Infinity on Infinity. -/
def fsqrt : FVal → FVal
  | .fin x => if x < 0 then .nan else .fin (Real.sqrt x)
  | .pinf => .pinf
  | _ => .nan

/-- gl-matrix vec3.distance(a, h) where the second argument may hold
special values: the square root of the sum of squared componentwise
differences. -/
def distF (a : Vec3) (h : FVec3) : FVal :=
  fsqrt (faddF (faddF (fsq (fsubR h.x a.x)) (fsq (fsubR h.y a.y)))
        (fsq (fsubR h.z a.z)))

/-- A gl-matrix mat4: sixteen numbers in column-major order; the
translation occupies slots 12, 13 and 14. -/
def Mat4 : Type := Fin 16 → ℝ

/-- mat4.create(): the identity matrix (ones exactly on the column-major
diagonal slots 0, 5, 10, 15). -/
def mat4create : Mat4 := fun i => if i.val % 5 = 0 then 1 else 0

/-- The collision-relevant state of a SceneObject (src/js/main.js lines
91..160).  The gl handle, shader program, texture, vertex array and
buffers play no part in any claim and are not modelled.  The width, height
and depth fields are Option valued because the JavaScript constructor
never assigns them: they are undefined unless some caller sets them. -/
structure SceneObject where
  width : Option ℝ
  height : Option ℝ
  depth : Option ℝ
  modelMatrix : Mat4
  boundingBox : AABB

/-- The JavaScript expression value || 1 applied to a possibly undefined
width, height or depth: undefined and 0 are falsy and give 1. -/
def orOne : Option ℝ → ℝ
  | none => 1
  | some x => if x = 0 then 1 else x

/-- SceneObject.updateBoundingBox (src/js/main.js lines 144..159): the two
locals initialised with infinities are dead (never read); the new box is
built from the fallback extents and the translation slots 12, 13, 14 of
the model matrix. -/
def SceneObject.updateBoundingBox (o : SceneObject) : SceneObject :=
  let _minInit : FVec3 := ⟨.ninf, .ninf, .ninf⟩
  let _maxInit : FVec3 := ⟨.pinf, .pinf, .pinf⟩
  let width := orOne o.width
  let height := orOne o.height
  let depth := orOne o.depth
  let px := o.modelMatrix 12
  let py := o.modelMatrix 13
  let pz := o.modelMatrix 14
  ⟨o.width, o.height, o.depth, o.modelMatrix,
   ⟨⟨px - width / 2, py - height / 2, pz - depth / 2⟩,
    ⟨px + width / 2, py + height / 2, pz + depth / 2⟩⟩⟩

/-- The SceneObject constructor (src/js/main.js lines 91..115): the model
matrix is mat4.create() and the bounding box is the degenerate zero box;
width, height and depth are left undefined. -/
def initialSceneObject : SceneObject :=
  ⟨none, none, none, mat4create, ⟨⟨0, 0, 0⟩, ⟨0, 0, 0⟩⟩⟩

/-- The Cube constructor (src/js/main.js lines 204..255): the width,
height and depth parameters are baked into the vertex buffer only (not
modelled) and are never assigned to fields, so the collision-relevant
state is exactly that of a fresh SceneObject. -/
def mkCube (_width _height _depth : ℝ) : SceneObject := initialSceneObject

/-- The Plane constructor (src/js/main.js lines 257..276): like Cube, the
parameters shape the vertex buffer only. -/
def mkPlane (_width _height : ℝ) : SceneObject := initialSceneObject

/-- isPointInsideAABB (src/js/main.js lines 162..171). -/
def isPointInsideAABB (p : Vec3) (box : AABB) : Prop :=
  p.x ≥ box.min.x ∧ p.x ≤ box.max.x ∧
  p.y ≥ box.min.y ∧ p.y ≤ box.max.y ∧
  p.z ≥ box.min.z ∧ p.z ≤ box.max.z

/-- getClosestPointOnAABB (src/js/main.js lines 173..180): the point
clamped per axis into the box. -/
def getClosestPointOnAABB (p : Vec3) (box : AABB) : Vec3 :=
  ⟨max box.min.x (min p.x box.max.x),
   max box.min.y (min p.y box.max.y),
   max box.min.z (min p.z box.max.z)⟩

/-- The result value of checkCollisions: either no collision or a
collision together with its normal. -/
inductive CollisionResult where
  | miss
  | hit (normal : Vec3)

/-- The distance computed inside the checkCollisions loop for one object:
the Euclidean distance from the query point to the closest point on the
object's freshly updated bounding box. -/
def collisionDistance (p : Vec3) (o : SceneObject) : ℝ :=
  let closestPoint := getClosestPointOnAABB p o.updateBoundingBox.boundingBox
  Real.sqrt ((closestPoint.x - p.x) ^ 2 + (closestPoint.y - p.y) ^ 2 +
    (closestPoint.z - p.z) ^ 2)

/-- The loop condition of checkCollisions for one object. -/
def collides (p : Vec3) (r : ℝ) (o : SceneObject) : Prop :=
  collisionDistance p o < r

/-- checkCollisions (src/js/main.js lines 182..202).  The loop mutates
each visited object by calling updateBoundingBox on it before testing, and
returns out of the loop at the first qualifying object; the mutation is
modelled by also returning the list of objects as left by the loop. -/
def checkCollisions (p : Vec3) (objs : List SceneObject) (r : ℝ) :
    List SceneObject × CollisionResult :=
  match objs with
  | [] => ([], .miss)
  | o :: rest =>
    let o2 := o.updateBoundingBox
    let closestPoint := getClosestPointOnAABB p o2.boundingBox
    let distance := Real.sqrt ((closestPoint.x - p.x) ^ 2 +
      (closestPoint.y - p.y) ^ 2 + (closestPoint.z - p.z) ^ 2)
    if distance < r then (o2 :: rest, .hit (vec3normalize (vsub p closestPoint)))
    else
      let r2 := checkCollisions p rest r
      (o2 :: r2.1, r2.2)

/-- A ray as built inside the raycast loop (src/js/main.js lines
285..288). -/
structure Ray where
  origin : Vec3
  direction : Vec3

/-- rayIntersectsAABB (src/js/main.js lines 303..334): the slab method
with JavaScript division, Math.min, Math.max and comparison semantics.
Returns the hit point origin + direction * tmin, whose components may be
special values when tmin is. -/
def rayIntersectsAABB (ray : Ray) (box : AABB) : Option FVec3 :=
  let t1 := fdiv (box.min.x - ray.origin.x) ray.direction.x
  let t2 := fdiv (box.max.x - ray.origin.x) ray.direction.x
  let t3 := fdiv (box.min.y - ray.origin.y) ray.direction.y
  let t4 := fdiv (box.max.y - ray.origin.y) ray.direction.y
  let t5 := fdiv (box.min.z - ray.origin.z) ray.direction.z
  let t6 := fdiv (box.max.z - ray.origin.z) ray.direction.z
  let tmin := fmax (fmax (fmin t1 t2) (fmin t3 t4)) (fmin t5 t6)
  let tmax := fmin (fmin (fmax t1 t2) (fmax t3 t4)) (fmax t5 t6)
  if flt tmax (.fin 0) then none
  else if flt tmax tmin then none
  else some ⟨faddR ray.origin.x (fmulR ray.direction.x tmin),
             faddR ray.origin.y (fmulR ray.direction.y tmin),
             faddR ray.origin.z (fmulR ray.direction.z tmin)⟩

/-- The entry parameter tmin of the slab test, exactly as computed by
rayIntersectsAABB: the maximum over the axes of the per-axis minimum. -/
def tminOf (ray : Ray) (box : AABB) : FVal :=
  fmax (fmax
      (fmin (fdiv (box.min.x - ray.origin.x) ray.direction.x)
            (fdiv (box.max.x - ray.origin.x) ray.direction.x))
      (fmin (fdiv (box.min.y - ray.origin.y) ray.direction.y)
            (fdiv (box.max.y - ray.origin.y) ray.direction.y)))
    (fmin (fdiv (box.min.z - ray.origin.z) ray.direction.z)
          (fdiv (box.max.z - ray.origin.z) ray.direction.z))

/-- The exit parameter tmax of the slab test, exactly as computed by
rayIntersectsAABB: the minimum over the axes of the per-axis maximum. -/
def tmaxOf (ray : Ray) (box : AABB) : FVal :=
  fmin (fmin
      (fmax (fdiv (box.min.x - ray.origin.x) ray.direction.x)
            (fdiv (box.max.x - ray.origin.x) ray.direction.x))
      (fmax (fdiv (box.min.y - ray.origin.y) ray.direction.y)
            (fdiv (box.max.y - ray.origin.y) ray.direction.y)))
    (fmax (fdiv (box.min.z - ray.origin.z) ray.direction.z)
          (fdiv (box.max.z - ray.origin.z) ray.direction.z))

/-- The loop of raycast (src/js/main.js lines 280..301), with the running
best object and best distance as accumulators; closestDistance starts at
Infinity.  Each object's stored bounding box is read as-is: raycast never
calls updateBoundingBox and never writes to any object. -/
def raycastLoop (origin direction : Vec3) (best : Option SceneObject)
    (bestD : FVal) : List SceneObject → Option SceneObject
  | [] => best
  | o :: rest =>
    match rayIntersectsAABB ⟨origin, direction⟩ o.boundingBox with
    | none => raycastLoop origin direction best bestD rest
    | some hit =>
      let d := distF origin hit
      if flt d bestD then raycastLoop origin direction (some o) d rest
      else raycastLoop origin direction best bestD rest

/-- raycast (src/js/main.js lines 280..301). -/
def raycast (origin direction : Vec3) (objs : List SceneObject) :
    Option SceneObject :=
  raycastLoop origin direction none .pinf objs

/-- The slab result for one object of the scene, on its stored bounding
box. -/
def objHit (origin direction : Vec3) (o : SceneObject) : Option FVec3 :=
  rayIntersectsAABB ⟨origin, direction⟩ o.boundingBox

/-- The distance from the ray origin to the hit point of one object, when
that distance is a finite number; none when the object is not hit or the
distance degenerates to NaN or Infinity. -/
def objDistR (origin direction : Vec3) (o : SceneObject) : Option ℝ :=
  match objHit origin direction o with
  | some h =>
    match distF origin h with
    | .fin d => some d
    | _ => none
  | none => none

/-- Reference selection function: the first object of the list achieving
the smallest finite hit distance, together with that distance. -/
def raycastSpec (origin direction : Vec3) :
    List SceneObject → Option (SceneObject × ℝ)
  | [] => none
  | o :: rest =>
    match objDistR origin direction o, raycastSpec origin direction rest with
    | some d, some od => if d ≤ od.2 then some (o, d) else some od
    | some d, none => some (o, d)
    | none, r => r

/-- The camera state owned by the module-level globals yaw, pitch and
position (src/js/main.js lines 369..371). -/
structure Camera where
  yaw : ℝ
  pitch : ℝ
  position : Vec3

/-- The initial camera state (src/js/main.js lines 369..371). -/
def initialCamera : Camera := ⟨0, 0, ⟨0, 0, 6⟩⟩

/-- updateCamera (src/js/main.js lines 373..400): the rotation deltas are
accumulated (rotation.1 onto pitch, rotation.2 onto yaw), the pitch is
clamped into [-(pi/2 - 0.01), pi/2 - 0.01] on every call, and the
translation is added to the position.  The derived cameraMatrix carries no
independent state and is not modelled. -/
def updateCamera (c : Camera) (translation : Vec3) (rotation : ℝ × ℝ) :
    Camera :=
  let yaw := c.yaw + rotation.2
  let pitch0 := c.pitch + rotation.1
  let maxPitch := Real.pi / 2 - 0.01
  let pitch := max (-maxPitch) (min maxPitch pitch0)
  ⟨yaw, pitch, vadd c.position translation⟩

/-- calculateForwardVector (src/js/main.js lines 471..486): built from the
yaw alone (the pitch line is commented out in the source), then divided by
its own length. -/
def calculateForwardVector (c : Camera) : Vec3 :=
  let f : Vec3 := ⟨-Real.sin c.yaw, 0, -Real.cos c.yaw⟩
  let length := Real.sqrt (f.x * f.x + f.y * f.y + f.z * f.z)
  ⟨f.x / length, f.y / length, f.z / length⟩

/-- calculateRightVector (src/js/main.js lines 488..502): built from the
yaw alone, then divided by its own length. -/
def calculateRightVector (c : Camera) : Vec3 :=
  let r : Vec3 := ⟨Real.cos c.yaw, 0, -Real.sin c.yaw⟩
  let length := Real.sqrt (r.x * r.x + r.y * r.y + r.z * r.z)
  ⟨r.x / length, r.y / length, r.z / length⟩

/-- The held-key flags consulted by handlePlayerInput. -/
structure Keys where
  w : Bool
  s : Bool
  a : Bool
  d : Bool

/-- The movement vector accumulated by handlePlayerInput (src/js/main.js
lines 431..444): starting from zero, vec3.scaleAndAdd with the forward
vector at speed +-0.1 for w and s, and with the right vector for a and
d. -/
def movementOf (keys : Keys) (c : Camera) : Vec3 :=
  let speed : ℝ := 0.1
  let forward := calculateForwardVector c
  let right := calculateRightVector c
  let m0 : Vec3 := ⟨0, 0, 0⟩
  let m1 := if keys.w then vScaleAdd m0 forward speed else m0
  let m2 := if keys.s then vScaleAdd m1 forward (-speed) else m1
  let m3 := if keys.a then vScaleAdd m2 right (-speed) else m2
  if keys.d then vScaleAdd m3 right speed else m3

/-- handlePlayerInput (src/js/main.js lines 425..469): compute the
movement, attempt the move, run checkCollisions with radius 0.5 on the
scene; on a collision apply the slide vector (movement minus its component
along the reported normal), otherwise adopt the attempted position; end
with updateCamera([0,0,0], [0,0]).  The mutated scene list is returned
alongside the camera. -/
def handlePlayerInput (keys : Keys) (cam : Camera)
    (scene : List SceneObject) : Camera × List SceneObject :=
  let movement := movementOf keys cam
  let attemptedPosition := vadd cam.position movement
  let cameraRadius : ℝ := 0.5
  let res := checkCollisions attemptedPosition scene cameraRadius
  match res.2 with
  | .hit normal =>
    let d := dot movement normal
    let slideVector := vScaleAdd movement normal (-d)
    (updateCamera ⟨cam.yaw, cam.pitch, vadd cam.position slideVector⟩
      ⟨0, 0, 0⟩ (0, 0), res.1)
  | .miss =>
    (updateCamera ⟨cam.yaw, cam.pitch, attemptedPosition⟩ ⟨0, 0, 0⟩ (0, 0),
      res.1)

/-! Concrete fixtures used by witnesses and counterexamples. -/

/-- The axis-aligned box with corners (-1,-1,-1) and (1,1,1). -/
def unitBox : AABB := ⟨⟨-1, -1, -1⟩, ⟨1, 1, 1⟩⟩

/-- An object whose extents are 2 on every axis and whose transform places
it at the origin, so updateBoundingBox gives it the unit box. -/
def cubeObject : SceneObject :=
  ⟨some 2, some 2, some 2, fun _ => 0, ⟨⟨0, 0, 0⟩, ⟨0, 0, 0⟩⟩⟩

/-- An object whose stored bounding box is the unit box; its transform and
extents are irrelevant to raycast, which never refreshes the box. -/
def boxObject : SceneObject := ⟨none, none, none, fun _ => 0, unitBox⟩

/-- An object whose stored bounding box (the unit box) is stale: its
transform has moved it to translation (100, 100, 100), but
updateBoundingBox has not been called since. -/
def staleObject : SceneObject := ⟨none, none, none, fun _ => 100, unitBox⟩

/-! Equation lemmas for the checkCollisions loop. -/

theorem checkCollisions_nil (p : Vec3) (r : ℝ) :
    checkCollisions p [] r = ([], .miss) := rfl

theorem checkCollisions_cons_hit (p : Vec3) (o : SceneObject)
    (rest : List SceneObject) (r : ℝ) (h : collides p r o) :
    checkCollisions p (o :: rest) r =
      (o.updateBoundingBox :: rest,
       .hit (vec3normalize (vsub p
         (getClosestPointOnAABB p o.updateBoundingBox.boundingBox)))) := by
  simp only [checkCollisions]
  exact if_pos h

theorem checkCollisions_cons_miss (p : Vec3) (o : SceneObject)
    (rest : List SceneObject) (r : ℝ) (h : ¬ collides p r o) :
    checkCollisions p (o :: rest) r =
      (o.updateBoundingBox :: (checkCollisions p rest r).1,
       (checkCollisions p rest r).2) := by
  simp only [checkCollisions]
  exact if_neg h

/-! Concrete evaluations shared by several witnesses. -/

theorem cubeObject_box : cubeObject.updateBoundingBox.boundingBox = unitBox := by
  simp only [cubeObject, SceneObject.updateBoundingBox, orOne, unitBox]
  norm_num

theorem sqrt_four : Real.sqrt 4 = 2 := by
  rw [show (4 : ℝ) = 2 ^ 2 by norm_num]
  exact Real.sqrt_sq (by norm_num)

theorem closest_unitBox_003 :
    getClosestPointOnAABB ⟨0, 0, 3⟩ unitBox = ⟨0, 0, 1⟩ := by
  simp only [getClosestPointOnAABB, unitBox]
  norm_num

theorem collides_cube_003 : collides ⟨0, 0, 3⟩ (2.5 : ℝ) cubeObject := by
  unfold collides collisionDistance
  rw [cubeObject_box, closest_unitBox_003]
  norm_num
  rw [sqrt_four]
  norm_num

theorem normalize_002 : vec3normalize ⟨0, 0, 2⟩ = ⟨0, 0, 1⟩ := by
  simp only [vec3normalize, vscale]
  rw [if_pos (by norm_num : (0 : ℝ) < 0 * 0 + 0 * 0 + 2 * 2)]
  rw [show (0 : ℝ) * 0 + 0 * 0 + 2 * 2 = 4 by norm_num, sqrt_four]
  norm_num

/-- C1: for every point, ordered scene and radius, checkCollisions scans
the objects in scene order, computing for each one the closest point on
its AABB by clamping the point per axis into [min, max]; it returns a
collision with normal normalize(point - closestPoint) for the first object
whose closest point lies at Euclidean distance strictly below the radius,
with no distance-based tie-break, and a miss when no object qualifies; in
particular, for the AABB with corners (-1,-1,-1) and (1,1,1), point
(0,0,3) and radius 2.5 it reports a collision with closest point (0,0,1)
and normal (0,0,1). -/
theorem checkCollisions_first_hit_spec :
    (∀ (p : Vec3) (box : AABB), getClosestPointOnAABB p box =
        ⟨max box.min.x (min p.x box.max.x), max box.min.y (min p.y box.max.y),
         max box.min.z (min p.z box.max.z)⟩) ∧
    (∀ (p : Vec3) (objs : List SceneObject) (r : ℝ),
      (∀ i (hi : i < objs.length), ¬ collides p r (objs.get ⟨i, hi⟩)) →
      (checkCollisions p objs r).2 = .miss) ∧
    (∀ (p : Vec3) (objs : List SceneObject) (r : ℝ) (i : ℕ)
        (hi : i < objs.length),
      collides p r (objs.get ⟨i, hi⟩) →
      (∀ j (hj : j < objs.length), j < i → ¬ collides p r (objs.get ⟨j, hj⟩)) →
      (checkCollisions p objs r).2 = .hit (vec3normalize (vsub p
        (getClosestPointOnAABB p
          (objs.get ⟨i, hi⟩).updateBoundingBox.boundingBox)))) ∧
    ((checkCollisions ⟨0, 0, 3⟩ [cubeObject] (2.5 : ℝ)).2 = .hit ⟨0, 0, 1⟩ ∧
      getClosestPointOnAABB ⟨0, 0, 3⟩ unitBox = ⟨0, 0, 1⟩) := by
  refine ⟨fun p box => rfl, ?_, ?_, ?_, closest_unitBox_003⟩
  · intro p objs r
    induction objs with
    | nil => intro _; rfl
    | cons o rest ih =>
      intro h
      rw [checkCollisions_cons_miss p o rest r (h 0 (by simp))]
      exact ih fun i hi => h (i + 1) (by simpa using Nat.succ_lt_succ hi)
  · intro p objs r i
    induction objs generalizing i with
    | nil => intro hi; exact absurd hi (by simp)
    | cons o rest ih =>
      intro hi hcol hprev
      cases i with
      | zero =>
        rw [checkCollisions_cons_hit p o rest r hcol]
        rfl
      | succ k =>
        have h0 : ¬ collides p r o :=
          hprev 0 (by simp) (Nat.succ_pos k)
        rw [checkCollisions_cons_miss p o rest r h0]
        exact ih k (by simpa using Nat.lt_of_succ_lt_succ hi) hcol
          fun j hj hjk =>
            hprev (j + 1) (by simpa using Nat.succ_lt_succ hj)
              (Nat.succ_lt_succ hjk)
  · have hcons := checkCollisions_cons_hit ⟨0, 0, 3⟩ cubeObject [] (2.5 : ℝ)
      collides_cube_003
    rw [hcons]
    rw [cubeObject_box, closest_unitBox_003]
    show CollisionResult.hit (vec3normalize (vsub ⟨0, 0, 3⟩ ⟨0, 0, 1⟩)) = _
    rw [show vsub ⟨0, 0, 3⟩ ⟨0, 0, 1⟩ = (⟨0, 0, 2⟩ : Vec3) by
      simp only [vsub]; norm_num]
    rw [normalize_002]

/-- Witness for checkCollisions_first_hit_spec: the first-hit clause
applied to the concrete one-object scene, every hypothesis discharged at
that input. -/
theorem checkCollisions_first_hit_spec_witness :
    (checkCollisions ⟨0, 0, 3⟩ [cubeObject] (2.5 : ℝ)).2 =
      .hit (vec3normalize (vsub ⟨0, 0, 3⟩ (getClosestPointOnAABB ⟨0, 0, 3⟩
        ((([cubeObject] : List SceneObject).get
          ⟨0, by simp⟩).updateBoundingBox.boundingBox)))) :=
  checkCollisions_first_hit_spec.2.2.1 ⟨0, 0, 3⟩ [cubeObject] (2.5 : ℝ) 0
    (by simp) collides_cube_003 (fun j hj hj0 => absurd hj0 (by omega))

/-! Lemmas about degenerate (inside-the-box) queries. -/

theorem closest_of_inside (p : Vec3) (box : AABB)
    (h : isPointInsideAABB p box) : getClosestPointOnAABB p box = p := by
  obtain ⟨h1, h2, h3, h4, h5, h6⟩ := h
  unfold getClosestPointOnAABB
  ext <;> dsimp only
  · rw [min_eq_left h2, max_eq_right h1]
  · rw [min_eq_left h4, max_eq_right h3]
  · rw [min_eq_left h6, max_eq_right h5]

theorem collides_of_inside (p : Vec3) (o : SceneObject) (r : ℝ) (hr : 0 < r)
    (h : isPointInsideAABB p o.updateBoundingBox.boundingBox) :
    collides p r o := by
  unfold collides collisionDistance
  rw [closest_of_inside p _ h]
  simpa using hr

theorem vec3normalize_zero : vec3normalize ⟨0, 0, 0⟩ = ⟨0, 0, 0⟩ := by
  simp [vec3normalize, vscale]

/-- C5: when the query point lies on or inside the (freshly updated) AABB
of the first object, the distance to the closest point is zero, and
checkCollisions still returns a defined result with the zero vector as a
sentinel normal instead of a NaN normal: vec3.normalize guards the
reciprocal square root behind a positive-squared-length test, so the
zero-length difference vector normalizes to the zero vector. -/
theorem inside_point_sentinel_normal :
    ∀ (p : Vec3) (o : SceneObject) (rest : List SceneObject) (r : ℝ),
      0 < r → isPointInsideAABB p o.updateBoundingBox.boundingBox →
      (checkCollisions p (o :: rest) r).2 = .hit ⟨0, 0, 0⟩ := by
  intro p o rest r hr hin
  rw [checkCollisions_cons_hit p o rest r (collides_of_inside p o r hr hin)]
  rw [closest_of_inside p _ hin]
  show CollisionResult.hit (vec3normalize (vsub p p)) = _
  rw [show vsub p p = (⟨0, 0, 0⟩ : Vec3) by simp [vsub], vec3normalize_zero]

/-- Witness for inside_point_sentinel_normal: the origin lies inside the
unit box of cubeObject, and the reported normal is the zero vector. -/
theorem inside_point_sentinel_normal_witness :
    (checkCollisions ⟨0, 0, 0⟩ [cubeObject] (0.5 : ℝ)).2 = .hit ⟨0, 0, 0⟩ :=
  inside_point_sentinel_normal ⟨0, 0, 0⟩ cubeObject [] (0.5 : ℝ)
    (by norm_num)
    (by rw [cubeObject_box]; simp only [isPointInsideAABB, unitBox]; norm_num)

/-! Lemmas about the pitch clamp. -/

theorem pi_half_eps_nonneg : (0 : ℝ) ≤ Real.pi / 2 - 0.01 := by
  have h := Real.pi_gt_three
  norm_num
  linarith

theorem updateCamera_pitch_bound (c : Camera) (t : Vec3) (rot : ℝ × ℝ) :
    |(updateCamera c t rot).pitch| ≤ Real.pi / 2 - 0.01 := by
  have hm := pi_half_eps_nonneg
  simp only [updateCamera]
  rw [abs_le]
  exact ⟨le_max_left _ _, max_le (by linarith) (min_le_left _ _)⟩

/-- C3: after any finite sequence of updateCamera calls with arbitrary
rotation deltas, the stored pitch satisfies the bound
abs pitch <= pi/2 - 0.01; the clamp is applied on every single update (for
any incoming state), so the camera can never invert. -/
theorem pitch_clamp_invariant :
    (∀ (c : Camera) (t : Vec3) (rot : ℝ × ℝ),
      |(updateCamera c t rot).pitch| ≤ Real.pi / 2 - 0.01) ∧
    (∀ steps : List (Vec3 × ℝ × ℝ),
      |(steps.foldl (fun c s => updateCamera c s.1 s.2) initialCamera).pitch|
        ≤ Real.pi / 2 - 0.01) := by
  refine ⟨updateCamera_pitch_bound, ?_⟩
  have haux : ∀ (steps : List (Vec3 × ℝ × ℝ)) (c : Camera),
      |c.pitch| ≤ Real.pi / 2 - 0.01 →
      |(steps.foldl (fun c s => updateCamera c s.1 s.2) c).pitch|
        ≤ Real.pi / 2 - 0.01 := by
    intro steps
    induction steps with
    | nil => intro c hc; exact hc
    | cons s rest ih =>
      intro c _
      exact ih _ (updateCamera_pitch_bound c s.1 s.2)
  intro steps
  refine haux steps initialCamera ?_
  rw [show initialCamera.pitch = 0 from rfl, abs_zero]
  exact pi_half_eps_nonneg

/-! Lemmas about the movement basis vectors. -/

theorem forward_formula (c : Camera) :
    calculateForwardVector c = ⟨-Real.sin c.yaw, 0, -Real.cos c.yaw⟩ := by
  simp only [calculateForwardVector]
  rw [show -Real.sin c.yaw * -Real.sin c.yaw + 0 * 0 +
      -Real.cos c.yaw * -Real.cos c.yaw =
      Real.sin c.yaw ^ 2 + Real.cos c.yaw ^ 2 by ring]
  rw [Real.sin_sq_add_cos_sq, Real.sqrt_one]
  norm_num

theorem right_formula (c : Camera) :
    calculateRightVector c = ⟨Real.cos c.yaw, 0, -Real.sin c.yaw⟩ := by
  simp only [calculateRightVector]
  rw [show Real.cos c.yaw * Real.cos c.yaw + 0 * 0 +
      -Real.sin c.yaw * -Real.sin c.yaw =
      Real.sin c.yaw ^ 2 + Real.cos c.yaw ^ 2 by ring]
  rw [Real.sin_sq_add_cos_sq, Real.sqrt_one]
  norm_num

/-- C8: for every camera state, the forward vector equals
(-sin yaw, 0, -cos yaw) and the right vector equals
(cos yaw, 0, -sin yaw), both of unit length, and neither depends on the
pitch (two states with equal yaw produce equal vectors), so keyboard
movement stays on the horizontal plane regardless of where the camera
looks. -/
theorem forward_right_vectors :
    ∀ c : Camera,
      calculateForwardVector c = ⟨-Real.sin c.yaw, 0, -Real.cos c.yaw⟩ ∧
      calculateRightVector c = ⟨Real.cos c.yaw, 0, -Real.sin c.yaw⟩ ∧
      vlen (calculateForwardVector c) = 1 ∧
      vlen (calculateRightVector c) = 1 ∧
      (∀ c' : Camera, c'.yaw = c.yaw →
        calculateForwardVector c' = calculateForwardVector c ∧
        calculateRightVector c' = calculateRightVector c) := by
  intro c
  refine ⟨forward_formula c, right_formula c, ?_, ?_, ?_⟩
  · rw [forward_formula c]
    unfold vlen dot
    dsimp only
    rw [show -Real.sin c.yaw * -Real.sin c.yaw + 0 * 0 +
        -Real.cos c.yaw * -Real.cos c.yaw =
        Real.sin c.yaw ^ 2 + Real.cos c.yaw ^ 2 by ring]
    rw [Real.sin_sq_add_cos_sq, Real.sqrt_one]
  · rw [right_formula c]
    unfold vlen dot
    dsimp only
    rw [show Real.cos c.yaw * Real.cos c.yaw + 0 * 0 +
        -Real.sin c.yaw * -Real.sin c.yaw =
        Real.sin c.yaw ^ 2 + Real.cos c.yaw ^ 2 by ring]
    rw [Real.sin_sq_add_cos_sq, Real.sqrt_one]
  · intro c' hyaw
    rw [forward_formula c, forward_formula c', right_formula c,
      right_formula c', hyaw]
    exact ⟨rfl, rfl⟩

/-- Witness for forward_right_vectors at the initial camera, with the
pitch-independence clause discharged at a camera with a different pitch
but the same yaw. -/
theorem forward_right_vectors_witness :
    calculateForwardVector initialCamera =
      ⟨-Real.sin 0, 0, -Real.cos 0⟩ ∧
    calculateForwardVector ⟨0, 1, ⟨0, 0, 6⟩⟩ =
      calculateForwardVector initialCamera :=
  ⟨(forward_right_vectors initialCamera).1,
   ((forward_right_vectors initialCamera).2.2.2.2 ⟨0, 1, ⟨0, 0, 6⟩⟩ rfl).1⟩

/-! Lemmas about updateBoundingBox. -/

theorem orOne_some_of_ne {w : ℝ} (h : w ≠ 0) : orOne (some w) = w := by
  simp [orOne, h]

theorem orOne_nonneg {ow : Option ℝ} (h : ∀ w, ow = some w → 0 ≤ w) :
    0 ≤ orOne ow := by
  cases ow with
  | none => norm_num [orOne]
  | some w =>
    simp only [orOne]
    by_cases hw : w = 0
    · rw [if_pos hw]; norm_num
    · rw [if_neg hw]; exact h w rfl

/-- C7: updateBoundingBox recomputes the AABB from the object's extents
(width, height, depth, each defaulting to 1 when unset or zero via the
JavaScript or-operator) and the translation slots 12, 13, 14 of the model
matrix, producing min = translation - extent/2 and max =
translation + extent/2 per axis; the result depends on nothing else in
the matrix (so any rotation part is ignored and the box stays
world-axis-aligned), and min <= max holds on every axis whenever the
stored extents are non-negative. -/
theorem updateBoundingBox_extents_translation :
    (∀ (o : SceneObject) (w h d : ℝ), o.width = some w → w ≠ 0 →
      o.height = some h → h ≠ 0 → o.depth = some d → d ≠ 0 →
      o.updateBoundingBox.boundingBox =
        ⟨⟨o.modelMatrix 12 - w / 2, o.modelMatrix 13 - h / 2,
          o.modelMatrix 14 - d / 2⟩,
         ⟨o.modelMatrix 12 + w / 2, o.modelMatrix 13 + h / 2,
          o.modelMatrix 14 + d / 2⟩⟩) ∧
    (∀ o o' : SceneObject, o.width = o'.width → o.height = o'.height →
      o.depth = o'.depth → o.modelMatrix 12 = o'.modelMatrix 12 →
      o.modelMatrix 13 = o'.modelMatrix 13 →
      o.modelMatrix 14 = o'.modelMatrix 14 →
      o.updateBoundingBox.boundingBox = o'.updateBoundingBox.boundingBox) ∧
    (∀ o : SceneObject, (∀ w, o.width = some w → 0 ≤ w) →
      (∀ h, o.height = some h → 0 ≤ h) → (∀ d, o.depth = some d → 0 ≤ d) →
      (o.updateBoundingBox.boundingBox.min.x ≤
          o.updateBoundingBox.boundingBox.max.x ∧
       o.updateBoundingBox.boundingBox.min.y ≤
          o.updateBoundingBox.boundingBox.max.y ∧
       o.updateBoundingBox.boundingBox.min.z ≤
          o.updateBoundingBox.boundingBox.max.z)) := by
  refine ⟨?_, ?_, ?_⟩
  · intro o w h d hw hw0 hh hh0 hd hd0
    simp only [SceneObject.updateBoundingBox]
    rw [hw, hh, hd, orOne_some_of_ne hw0, orOne_some_of_ne hh0,
      orOne_some_of_ne hd0]
  · intro o o' hw hh hd h12 h13 h14
    simp only [SceneObject.updateBoundingBox]
    rw [hw, hh, hd, h12, h13, h14]
  · intro o hw hh hd
    have h1 := orOne_nonneg hw
    have h2 := orOne_nonneg hh
    have h3 := orOne_nonneg hd
    simp only [SceneObject.updateBoundingBox]
    refine ⟨by linarith, by linarith, by linarith⟩

/-- Witness for updateBoundingBox_extents_translation at a concrete object
with extents (3, 4, 5) and translation (7, 7, 7). -/
theorem updateBoundingBox_extents_translation_witness :
    (SceneObject.updateBoundingBox
        ⟨some 3, some 4, some 5, fun _ => 7, unitBox⟩).boundingBox =
      ⟨⟨7 - 3 / 2, 7 - 4 / 2, 7 - 5 / 2⟩, ⟨7 + 3 / 2, 7 + 4 / 2, 7 + 5 / 2⟩⟩ :=
  updateBoundingBox_extents_translation.1
    ⟨some 3, some 4, some 5, fun _ => 7, unitBox⟩ 3 4 5 rfl (by norm_num)
    rfl (by norm_num) rfl (by norm_num)

/-- C10: every freshly constructed SceneObject (hence every Cube and
Plane, whose constructors never store their size parameters) has the
degenerate point box at the origin, not infinite bounds; and the box
produced by any updateBoundingBox call is built purely from the (finite)
translation entries and fallback extents, so the infinite arrays
initialised at the start of updateBoundingBox are never read and no
component of the resulting box is an infinity. -/
theorem initial_and_updated_box_finite :
    (∀ w h d : ℝ, mkCube w h d = initialSceneObject) ∧
    (∀ w h : ℝ, mkPlane w h = initialSceneObject) ∧
    initialSceneObject.boundingBox = ⟨⟨0, 0, 0⟩, ⟨0, 0, 0⟩⟩ ∧
    (∀ o : SceneObject, o.updateBoundingBox.boundingBox =
      ⟨⟨o.modelMatrix 12 - orOne o.width / 2,
        o.modelMatrix 13 - orOne o.height / 2,
        o.modelMatrix 14 - orOne o.depth / 2⟩,
       ⟨o.modelMatrix 12 + orOne o.width / 2,
        o.modelMatrix 13 + orOne o.height / 2,
        o.modelMatrix 14 + orOne o.depth / 2⟩⟩) :=
  ⟨fun _ _ _ => rfl, fun _ _ => rfl, rfl, fun _ => rfl⟩

/-! Lemmas about normalization and the sliding response. -/

theorem vec3normalize_unit_or_zero (v : Vec3) :
    vec3normalize v = ⟨0, 0, 0⟩ ∨
    dot (vec3normalize v) (vec3normalize v) = 1 := by
  by_cases h : 0 < v.x * v.x + v.y * v.y + v.z * v.z
  · right
    simp only [vec3normalize]
    rw [if_pos h]
    simp only [vscale, dot]
    have hs : Real.sqrt (v.x * v.x + v.y * v.y + v.z * v.z) *
        Real.sqrt (v.x * v.x + v.y * v.y + v.z * v.z) =
        v.x * v.x + v.y * v.y + v.z * v.z :=
      Real.mul_self_sqrt (le_of_lt h)
    have hne : v.x * v.x + v.y * v.y + v.z * v.z ≠ 0 := ne_of_gt h
    have hsne : Real.sqrt (v.x * v.x + v.y * v.y + v.z * v.z) ≠ 0 :=
      ne_of_gt (Real.sqrt_pos.mpr h)
    field_simp
  · left
    have h0 : v.x * v.x + v.y * v.y + v.z * v.z = 0 := by
      have := add_nonneg (add_nonneg (mul_self_nonneg v.x)
        (mul_self_nonneg v.y)) (mul_self_nonneg v.z)
      linarith [not_lt.mp h]
    simp only [vec3normalize]
    rw [if_neg h, h0]
    simp [vscale]

theorem checkCollisions_hit_exists_normalize (p : Vec3)
    (objs : List SceneObject) (r : ℝ) (n : Vec3)
    (h : (checkCollisions p objs r).2 = .hit n) :
    ∃ v, n = vec3normalize v := by
  induction objs with
  | nil => exact absurd h (by simp [checkCollisions])
  | cons o rest ih =>
    by_cases hc : collides p r o
    · rw [checkCollisions_cons_hit p o rest r hc] at h
      dsimp only at h
      injection h with h
      exact ⟨_, h.symm⟩
    · rw [checkCollisions_cons_miss p o rest r hc] at h
      exact ih h

/-- C4: when handlePlayerInput detects a collision for the attempted
position, the movement actually applied to the camera position is the
attempted movement minus its component along the reported collision
normal, so the applied movement is exactly orthogonal to the normal (the
reported normal always being a unit vector or, in the degenerate case, the
zero vector) — a sliding response, not a full stop and not a bounce. -/
theorem sliding_response_orthogonal :
    ∀ (keys : Keys) (cam : Camera) (scene : List SceneObject) (n : Vec3),
      (checkCollisions (vadd cam.position (movementOf keys cam)) scene
        (0.5 : ℝ)).2 = .hit n →
      vsub (handlePlayerInput keys cam scene).1.position cam.position =
        vsub (movementOf keys cam)
          (vscale n (dot (movementOf keys cam) n)) ∧
      dot (vsub (handlePlayerInput keys cam scene).1.position cam.position)
        n = 0 := by
  intro keys cam scene n h
  have happlied :
      vsub (handlePlayerInput keys cam scene).1.position cam.position =
        vScaleAdd (movementOf keys cam) n
          (-(dot (movementOf keys cam) n)) := by
    simp only [handlePlayerInput]
    rw [h]
    simp only [updateCamera, vadd, vScaleAdd, vsub]
    ext <;> dsimp only <;> ring
  obtain ⟨v, hv⟩ := checkCollisions_hit_exists_normalize _ _ _ _ h
  constructor
  · rw [happlied]
    simp only [vScaleAdd, vsub, vscale]
    ext <;> dsimp only <;> ring
  · rw [happlied]
    rcases vec3normalize_unit_or_zero v with h0 | h1
    · rw [hv, h0]
      simp [dot, vScaleAdd]
    · have hn : dot n n = 1 := by rw [hv]; exact h1
      simp only [vScaleAdd, dot] at hn ⊢
      linear_combination
        (-(((movementOf keys cam).x * n.x + (movementOf keys cam).y * n.y +
          (movementOf keys cam).z * n.z))) * hn

theorem sqrt_81_400 : Real.sqrt (81 / 400) = 9 / 20 := by
  rw [show (81 / 400 : ℝ) = (9 / 20) ^ 2 by norm_num]
  exact Real.sqrt_sq (by norm_num)

theorem movement_w_yaw0 :
    movementOf ⟨true, false, false, false⟩ ⟨0, 0, ⟨0, 0, 31 / 20⟩⟩ =
      ⟨0, 0, -(0.1 : ℝ)⟩ := by
  simp only [movementOf, forward_formula, right_formula]
  norm_num [vScaleAdd, Real.sin_zero, Real.cos_zero]

theorem closest_unitBox_29 :
    getClosestPointOnAABB ⟨0, 0, 29 / 20⟩ unitBox = ⟨0, 0, 1⟩ := by
  simp only [getClosestPointOnAABB, unitBox]
  norm_num

theorem collides_cube_29 :
    collides ⟨0, 0, 29 / 20⟩ (0.5 : ℝ) cubeObject := by
  unfold collides collisionDistance
  rw [cubeObject_box, closest_unitBox_29]
  have h9 : Real.sqrt 81 = 9 := by
    rw [show (81 : ℝ) = 9 ^ 2 by norm_num]
    exact Real.sqrt_sq (by norm_num)
  have h20 : Real.sqrt 400 = 20 := by
    rw [show (400 : ℝ) = 20 ^ 2 by norm_num]
    exact Real.sqrt_sq (by norm_num)
  norm_num
  rw [h9, h20]
  norm_num

theorem normalize_0_0_920 : vec3normalize ⟨0, 0, 9 / 20⟩ = ⟨0, 0, 1⟩ := by
  simp only [vec3normalize, vscale]
  rw [if_pos (by norm_num : (0 : ℝ) < 0 * 0 + 0 * 0 + 9 / 20 * (9 / 20))]
  rw [show (0 : ℝ) * 0 + 0 * 0 + 9 / 20 * (9 / 20) = 81 / 400 by norm_num,
    sqrt_81_400]
  norm_num

theorem checkCollisions_cube_29 :
    (checkCollisions ⟨0, 0, 29 / 20⟩ [cubeObject] (0.5 : ℝ)).2 =
      .hit ⟨0, 0, 1⟩ := by
  rw [checkCollisions_cons_hit _ _ _ _ collides_cube_29]
  rw [cubeObject_box, closest_unitBox_29]
  show CollisionResult.hit (vec3normalize (vsub ⟨0, 0, 29 / 20⟩ ⟨0, 0, 1⟩)) = _
  rw [show vsub (⟨0, 0, 29 / 20⟩ : Vec3) ⟨0, 0, 1⟩ =
    (⟨0, 0, 9 / 20⟩ : Vec3) by simp only [vsub]; norm_num]
  rw [normalize_0_0_920]

/-- Witness for sliding_response_orthogonal: pressing w with yaw 0 from
position (0, 0, 1.55) collides with the unit cube, and the applied
movement is orthogonal to the reported normal (0, 0, 1). -/
theorem sliding_response_orthogonal_witness :
    dot (vsub (handlePlayerInput ⟨true, false, false, false⟩
        ⟨0, 0, ⟨0, 0, 31 / 20⟩⟩ [cubeObject]).1.position
      (⟨0, 0, ⟨0, 0, 31 / 20⟩⟩ : Camera).position) ⟨0, 0, 1⟩ = 0 :=
  (sliding_response_orthogonal ⟨true, false, false, false⟩
    ⟨0, 0, ⟨0, 0, 31 / 20⟩⟩ [cubeObject] ⟨0, 0, 1⟩ (by
      rw [show vadd (⟨0, 0, ⟨0, 0, 31 / 20⟩⟩ : Camera).position
          (movementOf ⟨true, false, false, false⟩ ⟨0, 0, ⟨0, 0, 31 / 20⟩⟩) =
          (⟨0, 0, 29 / 20⟩ : Vec3) by
        rw [movement_w_yaw0]; simp only [vadd]; norm_num]
      exact checkCollisions_cube_29)).2

/-! Lemmas about JavaScript division by zero. -/

theorem fdiv_zero_pos {a : ℝ} (h : 0 < a) : fdiv a 0 = .pinf := by
  unfold fdiv
  rw [if_pos rfl, if_pos h]

theorem fdiv_zero_neg {a : ℝ} (h : a < 0) : fdiv a 0 = .ninf := by
  unfold fdiv
  rw [if_pos rfl, if_neg (by linarith), if_pos h]

theorem fdiv_zero_zero : fdiv 0 0 = .nan := by
  unfold fdiv
  rw [if_pos rfl, if_neg (by norm_num), if_neg (by norm_num)]

theorem fdiv_ne {a b : ℝ} (h : b ≠ 0) : fdiv a b = .fin (a / b) := by
  unfold fdiv
  rw [if_neg h]

/-- C6: the slab test is total on rays with zero direction components and
needs no special-case branch: a division by a zero component yields a
signed infinity by sign of the numerator (or NaN when the slab boundary
coincides with the origin coordinate), and when the origin lies strictly
within both zero-component slabs the min/max reduction absorbs the
infinities, leaving exactly the finite z-axis parameters; in particular,
for origin (0,0,10), direction (0,0,-1) and the AABB with corners
(-1,-1,-1) and (1,1,1), the test returns the hit point (0,0,1) with
tmin = 9. -/
theorem slab_zero_direction_total :
    (∀ a : ℝ, (0 < a → fdiv a 0 = .pinf) ∧ (a < 0 → fdiv a 0 = .ninf) ∧
      fdiv 0 0 = .nan) ∧
    (∀ (ray : Ray) (box : AABB), ray.direction.x = 0 → ray.direction.y = 0 →
      ray.direction.z ≠ 0 → box.min.x < ray.origin.x →
      ray.origin.x < box.max.x → box.min.y < ray.origin.y →
      ray.origin.y < box.max.y →
      tminOf ray box =
        .fin (min ((box.min.z - ray.origin.z) / ray.direction.z)
          ((box.max.z - ray.origin.z) / ray.direction.z)) ∧
      tmaxOf ray box =
        .fin (max ((box.min.z - ray.origin.z) / ray.direction.z)
          ((box.max.z - ray.origin.z) / ray.direction.z))) ∧
    (rayIntersectsAABB ⟨⟨0, 0, 10⟩, ⟨0, 0, -1⟩⟩ unitBox =
        some ⟨.fin 0, .fin 0, .fin 1⟩ ∧
      tminOf ⟨⟨0, 0, 10⟩, ⟨0, 0, -1⟩⟩ unitBox = .fin 9) := by
  refine ⟨fun a => ⟨fdiv_zero_pos, fdiv_zero_neg, fdiv_zero_zero⟩, ?_, ?_, ?_⟩
  · intro ray box hdx hdy hdz h1 h2 h3 h4
    have e1 : fdiv (box.min.x - ray.origin.x) ray.direction.x = .ninf := by
      rw [hdx]; exact fdiv_zero_neg (by linarith)
    have e2 : fdiv (box.max.x - ray.origin.x) ray.direction.x = .pinf := by
      rw [hdx]; exact fdiv_zero_pos (by linarith)
    have e3 : fdiv (box.min.y - ray.origin.y) ray.direction.y = .ninf := by
      rw [hdy]; exact fdiv_zero_neg (by linarith)
    have e4 : fdiv (box.max.y - ray.origin.y) ray.direction.y = .pinf := by
      rw [hdy]; exact fdiv_zero_pos (by linarith)
    have e5 := fdiv_ne (a := box.min.z - ray.origin.z) hdz
    have e6 := fdiv_ne (a := box.max.z - ray.origin.z) hdz
    constructor
    · unfold tminOf
      rw [e1, e2, e3, e4, e5, e6]
      simp [fmin, fmax]
    · unfold tmaxOf
      rw [e1, e2, e3, e4, e5, e6]
      simp [fmin, fmax]
  · norm_num [rayIntersectsAABB, unitBox, fdiv, fmin, fmax, flt, faddR,
      fmulR]
  · norm_num [tminOf, unitBox, fdiv, fmin, fmax]

/-- Witness for slab_zero_direction_total: the sign rule at 5 / 0 and the
absorption clause at the concrete scenario ray and unit box. -/
theorem slab_zero_direction_total_witness :
    fdiv 5 0 = .pinf ∧
    tminOf ⟨⟨0, 0, 10⟩, ⟨0, 0, -1⟩⟩ unitBox =
      .fin (min ((unitBox.min.z - 10) / (-1)) ((unitBox.max.z - 10) / (-1))) :=
  ⟨(slab_zero_direction_total.1 5).1 (by norm_num),
   (slab_zero_direction_total.2.1 ⟨⟨0, 0, 10⟩, ⟨0, 0, -1⟩⟩ unitBox rfl rfl
      (by norm_num) (by norm_num [unitBox]) (by norm_num [unitBox])
      (by norm_num [unitBox]) (by norm_num [unitBox])).1⟩

/-! Concrete slab and distance evaluations. -/

theorem sqrt_81 : Real.sqrt 81 = 9 := by
  rw [show (81 : ℝ) = 9 ^ 2 by norm_num]
  exact Real.sqrt_sq (by norm_num)

theorem slab_hit_0010 :
    rayIntersectsAABB ⟨⟨0, 0, 10⟩, ⟨0, 0, -1⟩⟩ unitBox =
      some ⟨.fin 0, .fin 0, .fin 1⟩ := by
  norm_num [rayIntersectsAABB, unitBox, fdiv, fmin, fmax, flt, faddR, fmulR]

theorem distF_hit_0010 : distF ⟨0, 0, 10⟩ ⟨.fin 0, .fin 0, .fin 1⟩ = .fin 9 := by
  norm_num [distF, fsubR, fsq, faddF, fsqrt, sqrt_81]

theorem objDistR_boxObject :
    objDistR ⟨0, 0, 10⟩ ⟨0, 0, -1⟩ boxObject = some 9 := by
  simp only [objDistR, objHit]
  rw [show boxObject.boundingBox = unitBox from rfl, slab_hit_0010]
  simp [distF_hit_0010]

theorem slab_nan_case :
    rayIntersectsAABB ⟨⟨1, 0, 0⟩, ⟨0, 0, -1⟩⟩ unitBox =
      some ⟨.nan, .nan, .nan⟩ := by
  norm_num [rayIntersectsAABB, unitBox, fdiv, fmin, fmax, flt, faddR, fmulR]

theorem distF_nan : distF ⟨1, 0, 0⟩ ⟨.nan, .nan, .nan⟩ = .nan := by
  simp [distF, fsubR, fsq, faddF, fsqrt]

/-- Counterexample to C2 as stated: for the ray with origin (1,0,0) (on
the boundary of the unit box) and direction (0,0,-1), the slab test on the
single scene object reports a hit (the 0/0 slab division yields NaN, every
comparison against NaN is false, so neither rejection branch fires), yet
raycast returns null: the hit point is all-NaN, its distance is NaN, and
NaN < Infinity is false, so the only hit object is never selected — raycast
does not return the smallest-distance hit object here. -/
theorem raycast_nan_counterexample :
    rayIntersectsAABB ⟨⟨1, 0, 0⟩, ⟨0, 0, -1⟩⟩ boxObject.boundingBox ≠ none ∧
    raycast ⟨1, 0, 0⟩ ⟨0, 0, -1⟩ [boxObject] = none := by
  constructor
  · rw [show boxObject.boundingBox = unitBox from rfl, slab_nan_case]
    simp
  · unfold raycast
    simp only [raycastLoop]
    rw [show boxObject.boundingBox = unitBox from rfl, slab_nan_case]
    simp [distF_nan, flt]

/-! Facts about the JavaScript comparison and about hit distances. -/

theorem fsqrt_ne_ninf (t : FVal) : fsqrt t ≠ .ninf := by
  cases t with
  | fin x =>
    simp only [fsqrt]
    split_ifs <;> simp
  | nan => simp [fsqrt]
  | ninf => simp [fsqrt]
  | pinf => simp [fsqrt]

theorem distF_ne_ninf (a : Vec3) (h : FVec3) : distF a h ≠ .ninf :=
  fsqrt_ne_ninf _

theorem not_flt_nan_left (t : FVal) : ¬ flt .nan t := by
  cases t <;> simp [flt]

theorem not_flt_pinf_left (t : FVal) : ¬ flt .pinf t := by
  cases t <;> simp [flt]

theorem flt_fin_pinf (a : ℝ) : flt (.fin a) .pinf := trivial

/-! The raycast loop computes the first minimal finite hit distance. -/

theorem raycastLoop_some (origin direction : Vec3) :
    ∀ (objs : List SceneObject) (o0 : SceneObject) (db : ℝ),
      raycastLoop origin direction (some o0) (.fin db) objs =
        match raycastSpec origin direction objs with
        | some od => if od.2 < db then some od.1 else some o0
        | none => some o0 := by
  intro objs
  induction objs with
  | nil => intro o0 db; rfl
  | cons o rest ih =>
    intro o0 db
    rcases hh : rayIntersectsAABB ⟨origin, direction⟩ o.boundingBox with _ | hit
    · have hdo : objDistR origin direction o = none := by
        simp [objDistR, objHit, hh]
      simp only [raycastLoop, hh]
      rw [ih o0 db]
      simp only [raycastSpec, hdo]
    · rcases hd : distF origin hit with _ | _ | _ | dx
      · have hdo : objDistR origin direction o = none := by
          simp [objDistR, objHit, hh, hd]
        simp only [raycastLoop, hh]
        rw [hd, if_neg (not_flt_nan_left _), ih o0 db]
        simp only [raycastSpec, hdo]
      · exact absurd hd (distF_ne_ninf _ _)
      · have hdo : objDistR origin direction o = none := by
          simp [objDistR, objHit, hh, hd]
        simp only [raycastLoop, hh]
        rw [hd, if_neg (not_flt_pinf_left _), ih o0 db]
        simp only [raycastSpec, hdo]
      · have hdo : objDistR origin direction o = some dx := by
          simp [objDistR, objHit, hh, hd]
        simp only [raycastLoop, hh]
        rw [hd]
        by_cases hlt : dx < db
        · rw [if_pos (show flt (.fin dx) (.fin db) from hlt), ih o dx]
          simp only [raycastSpec, hdo]
          rcases hspec : raycastSpec origin direction rest with _ | od
          · simp only [hspec]
            simp [hlt]
          · simp only [hspec]
            by_cases hle : dx ≤ od.2
            · rw [if_pos hle]
              simp [hlt, not_lt.mpr hle]
            · rw [if_neg hle]
              have hlt2 : od.2 < db := lt_trans (not_le.mp hle) hlt
              simp [not_le.mp hle, hlt2]
        · rw [if_neg (show ¬ flt (.fin dx) (.fin db) from hlt), ih o0 db]
          simp only [raycastSpec, hdo]
          rcases hspec : raycastSpec origin direction rest with _ | od
          · simp only [hspec]
            simp [hlt]
          · simp only [hspec]
            by_cases hle : dx ≤ od.2
            · rw [if_pos hle]
              have hnlt : ¬ od.2 < db := fun hcon =>
                hlt (lt_of_le_of_lt hle hcon)
              simp [hlt, hnlt]
            · rw [if_neg hle]

theorem raycastLoop_none (origin direction : Vec3) :
    ∀ objs : List SceneObject,
      raycastLoop origin direction none .pinf objs =
        Option.map Prod.fst (raycastSpec origin direction objs) := by
  intro objs
  induction objs with
  | nil => rfl
  | cons o rest ih =>
    rcases hh : rayIntersectsAABB ⟨origin, direction⟩ o.boundingBox with _ | hit
    · have hdo : objDistR origin direction o = none := by
        simp [objDistR, objHit, hh]
      simp only [raycastLoop, hh]
      rw [ih]
      simp only [raycastSpec, hdo]
    · rcases hd : distF origin hit with _ | _ | _ | dx
      · have hdo : objDistR origin direction o = none := by
          simp [objDistR, objHit, hh, hd]
        simp only [raycastLoop, hh]
        rw [hd, if_neg (not_flt_nan_left _), ih]
        simp only [raycastSpec, hdo]
      · exact absurd hd (distF_ne_ninf _ _)
      · have hdo : objDistR origin direction o = none := by
          simp [objDistR, objHit, hh, hd]
        simp only [raycastLoop, hh]
        rw [hd, if_neg (not_flt_pinf_left _), ih]
        simp only [raycastSpec, hdo]
      · have hdo : objDistR origin direction o = some dx := by
          simp [objDistR, objHit, hh, hd]
        simp only [raycastLoop, hh]
        rw [hd, if_pos (flt_fin_pinf dx),
          raycastLoop_some origin direction rest o dx]
        simp only [raycastSpec, hdo]
        rcases hspec : raycastSpec origin direction rest with _ | od
        · simp only [hspec]
          rfl
        · simp only [hspec]
          by_cases hle : dx ≤ od.2
          · rw [if_pos hle]
            simp [not_lt.mpr hle]
          · rw [if_neg hle]
            simp [not_le.mp hle]

theorem raycast_eq_spec (origin direction : Vec3) (objs : List SceneObject) :
    raycast origin direction objs =
      Option.map Prod.fst (raycastSpec origin direction objs) :=
  raycastLoop_none origin direction objs

theorem raycastSpec_mem (origin direction : Vec3) :
    ∀ (objs : List SceneObject) (ob : SceneObject) (d : ℝ),
      raycastSpec origin direction objs = some (ob, d) →
      ob ∈ objs ∧ objDistR origin direction ob = some d := by
  intro objs
  induction objs with
  | nil => intro ob d h; exact absurd h (by simp [raycastSpec])
  | cons o rest ih =>
    intro ob d h
    rcases hdo : objDistR origin direction o with _ | dx
    · simp only [raycastSpec, hdo] at h
      obtain ⟨hm, hd2⟩ := ih ob d h
      exact ⟨List.mem_cons_of_mem _ hm, hd2⟩
    · rcases hspec : raycastSpec origin direction rest with _ | od
      · simp only [raycastSpec, hdo, hspec] at h
        simp only [Option.some.injEq, Prod.mk.injEq] at h
        obtain ⟨h1, h2⟩ := h
        subst h1
        subst h2
        exact ⟨List.mem_cons_self _ _, hdo⟩
      · simp only [raycastSpec, hdo, hspec] at h
        by_cases hle : dx ≤ od.2
        · rw [if_pos hle] at h
          simp only [Option.some.injEq, Prod.mk.injEq] at h
          obtain ⟨h1, h2⟩ := h
          subst h1
          subst h2
          exact ⟨List.mem_cons_self _ _, hdo⟩
        · rw [if_neg hle] at h
          simp only [Option.some.injEq] at h
          have hspec2 : raycastSpec origin direction rest = some (ob, d) := by
            rw [hspec, h]
          obtain ⟨hm, hd2⟩ := ih ob d hspec2
          exact ⟨List.mem_cons_of_mem _ hm, hd2⟩

theorem raycastSpec_eq_none (origin direction : Vec3) :
    ∀ objs : List SceneObject,
      (∀ o ∈ objs, objDistR origin direction o = none) →
      raycastSpec origin direction objs = none := by
  intro objs
  induction objs with
  | nil => intro _; rfl
  | cons o rest ih =>
    intro h
    have hdo := h o (List.mem_cons_self _ _)
    simp only [raycastSpec, hdo]
    exact ih fun o1 ho1 => h o1 (List.mem_cons_of_mem _ ho1)

theorem raycastSpec_first_min (origin direction : Vec3) :
    ∀ (objs : List SceneObject) (i : ℕ) (hi : i < objs.length) (d : ℝ),
      objDistR origin direction (objs.get ⟨i, hi⟩) = some d →
      (∀ j (hj : j < objs.length) dj,
        objDistR origin direction (objs.get ⟨j, hj⟩) = some dj → d ≤ dj) →
      (∀ j (hj : j < objs.length), j < i → ∀ dj,
        objDistR origin direction (objs.get ⟨j, hj⟩) = some dj → d < dj) →
      raycastSpec origin direction objs = some (objs.get ⟨i, hi⟩, d) := by
  intro objs
  induction objs with
  | nil => intro i hi; exact absurd hi (by simp)
  | cons o rest ih =>
    intro i hi d hd hmin hfirst
    cases i with
    | zero =>
      have hdo : objDistR origin direction o = some d := hd
      rcases hspec : raycastSpec origin direction rest with _ | od
      · simp only [raycastSpec, hdo, hspec]
        rfl
      · obtain ⟨hm, hd2⟩ :=
          raycastSpec_mem origin direction rest od.1 od.2 (by rw [hspec])
        obtain ⟨⟨j, hj⟩, hjv⟩ := List.mem_iff_get.mp hm
        have hle : d ≤ od.2 := by
          refine hmin (j + 1) (by simpa using Nat.succ_lt_succ hj) od.2 ?_
          show objDistR origin direction (rest.get ⟨j, hj⟩) = some od.2
          rw [hjv]
          exact hd2
        simp only [raycastSpec, hdo, hspec]
        rw [if_pos hle]
        rfl
    | succ k =>
      have hk : k < rest.length := by simpa using Nat.lt_of_succ_lt_succ hi
      have hspecrest : raycastSpec origin direction rest =
          some (rest.get ⟨k, hk⟩, d) := by
        refine ih k hk d hd ?_ ?_
        · exact fun j hj dj hdj =>
            hmin (j + 1) (by simpa using Nat.succ_lt_succ hj) dj hdj
        · exact fun j hj hjk dj hdj =>
            hfirst (j + 1) (by simpa using Nat.succ_lt_succ hj)
              (Nat.succ_lt_succ hjk) dj hdj
      rcases hdo : objDistR origin direction o with _ | d0
      · simp only [raycastSpec, hdo, hspecrest]
        rfl
      · have hlt : d < d0 := hfirst 0 (by simp) (Nat.succ_pos k) d0 hdo
        simp only [raycastSpec, hdo, hspecrest]
        rw [if_neg (by linarith : ¬ d0 ≤ d)]
        rfl

theorem rayIntersectsAABB_eq (ray : Ray) (box : AABB) :
    rayIntersectsAABB ray box =
      if flt (tmaxOf ray box) (.fin 0) then none
      else if flt (tmaxOf ray box) (tminOf ray box) then none
      else some ⟨faddR ray.origin.x (fmulR ray.direction.x (tminOf ray box)),
                 faddR ray.origin.y (fmulR ray.direction.y (tminOf ray box)),
                 faddR ray.origin.z (fmulR ray.direction.z (tminOf ray box))⟩ :=
  rfl

/-- C2 amended: rayIntersectsAABB reports no hit for an object exactly
when tmax < 0 or tmin > tmax under the JavaScript comparisons (false on
NaN), with tmin the max over axes of the per-axis min and tmax the min
over axes of the per-axis max; among the hit objects whose hit distance is
a finite number, raycast returns the first one achieving the smallest
distance (ties broken by scene order, first wins) and returns null when no
object has a finite hit distance — objects whose hit point degenerates to
NaN or infinity are never selected; and when the finite hit distances of
two objects differ, reversing their order in the scene does not change
which object is returned. -/
theorem raycast_nearest_amended :
    (∀ (ray : Ray) (box : AABB), rayIntersectsAABB ray box = none ↔
      (flt (tmaxOf ray box) (.fin 0) ∨
        flt (tmaxOf ray box) (tminOf ray box))) ∧
    (∀ (origin direction : Vec3) (objs : List SceneObject),
      (∀ i (hi : i < objs.length),
        objDistR origin direction (objs.get ⟨i, hi⟩) = none) →
      raycast origin direction objs = none) ∧
    (∀ (origin direction : Vec3) (objs : List SceneObject) (i : ℕ)
        (hi : i < objs.length) (d : ℝ),
      objDistR origin direction (objs.get ⟨i, hi⟩) = some d →
      (∀ j (hj : j < objs.length) dj,
        objDistR origin direction (objs.get ⟨j, hj⟩) = some dj → d ≤ dj) →
      (∀ j (hj : j < objs.length), j < i → ∀ dj,
        objDistR origin direction (objs.get ⟨j, hj⟩) = some dj → d < dj) →
      raycast origin direction objs = some (objs.get ⟨i, hi⟩)) ∧
    (∀ (origin direction : Vec3) (o1 o2 : SceneObject) (d1 d2 : ℝ),
      objDistR origin direction o1 = some d1 →
      objDistR origin direction o2 = some d2 → d1 ≠ d2 →
      raycast origin direction [o1, o2] = raycast origin direction [o2, o1]) := by
  refine ⟨?_, ?_, ?_, ?_⟩
  · intro ray box
    rw [rayIntersectsAABB_eq]
    by_cases h1 : flt (tmaxOf ray box) (.fin 0)
    · simp [h1]
    · by_cases h2 : flt (tmaxOf ray box) (tminOf ray box)
      · simp [h1, h2]
      · simp [h1, h2]
  · intro origin direction objs h
    rw [raycast_eq_spec,
      raycastSpec_eq_none origin direction objs fun o ho => ?_]
    · rfl
    · obtain ⟨⟨i, hi⟩, hiv⟩ := List.mem_iff_get.mp ho
      rw [← hiv]
      exact h i hi
  · intro origin direction objs i hi d hd hmin hfirst
    rw [raycast_eq_spec,
      raycastSpec_first_min origin direction objs i hi d hd hmin hfirst]
    rfl
  · intro origin direction o1 o2 d1 d2 h1 h2 hne
    rw [raycast_eq_spec, raycast_eq_spec]
    have hs1 : raycastSpec origin direction [o1, o2] =
        if d1 ≤ d2 then some (o1, d1) else some (o2, d2) := by
      simp only [raycastSpec, h1, h2]
    have hs2 : raycastSpec origin direction [o2, o1] =
        if d2 ≤ d1 then some (o2, d2) else some (o1, d1) := by
      simp only [raycastSpec, h1, h2]
    rw [hs1, hs2]
    rcases lt_or_gt_of_ne hne with h | h
    · rw [if_pos (le_of_lt h), if_neg (not_le.mpr h)]
    · rw [if_neg (not_le.mpr h), if_pos (le_of_lt h)]

/-- Witness for raycast_nearest_amended: the first-minimum clause applied
to the one-object scene holding the unit box, hit at distance 9. -/
theorem raycast_nearest_amended_witness :
    raycast ⟨0, 0, 10⟩ ⟨0, 0, -1⟩ [boxObject] =
      some (([boxObject] : List SceneObject).get ⟨0, by simp⟩) :=
  raycast_nearest_amended.2.2.1 ⟨0, 0, 10⟩ ⟨0, 0, -1⟩ [boxObject] 0 (by simp)
    9 objDistR_boxObject
    (fun j hj dj hdj => by
      have hj0 : j = 0 := by simp at hj; omega
      subst hj0
      have hdj2 : objDistR ⟨0, 0, 10⟩ ⟨0, 0, -1⟩ boxObject = some dj := hdj
      rw [objDistR_boxObject] at hdj2
      injection hdj2 with h
      exact le_of_eq h)
    (fun j hj hj0 dj hdj => absurd hj0 (by omega))

/-! Lemmas about the state left behind by checkCollisions and about the
purity of raycast. -/

theorem checkCollisions_miss_map (p : Vec3) :
    ∀ (objs : List SceneObject) (r : ℝ),
      (checkCollisions p objs r).2 = .miss →
      (checkCollisions p objs r).1 =
        objs.map SceneObject.updateBoundingBox := by
  intro objs
  induction objs with
  | nil => intro r _; rfl
  | cons o rest ih =>
    intro r h
    by_cases hc : collides p r o
    · rw [checkCollisions_cons_hit p o rest r hc] at h
      exact absurd h (by simp)
    · rw [checkCollisions_cons_miss p o rest r hc] at h ⊢
      simp only [List.map_cons]
      rw [ih r h]

theorem checkCollisions_hit_prefix (p : Vec3) :
    ∀ (objs : List SceneObject) (r : ℝ) (k : ℕ) (hk : k < objs.length),
      collides p r (objs.get ⟨k, hk⟩) →
      (∀ j (hj : j < objs.length), j < k → ¬ collides p r (objs.get ⟨j, hj⟩)) →
      (checkCollisions p objs r).1 =
        (objs.take (k + 1)).map SceneObject.updateBoundingBox ++
          objs.drop (k + 1) := by
  intro objs
  induction objs with
  | nil => intro r k hk; exact absurd hk (by simp)
  | cons o rest ih =>
    intro r k hk hcol hprev
    cases k with
    | zero =>
      rw [checkCollisions_cons_hit p o rest r hcol]
      simp
    | succ m =>
      have h0 : ¬ collides p r o := hprev 0 (by simp) (Nat.succ_pos m)
      rw [checkCollisions_cons_miss p o rest r h0]
      have hm : m < rest.length := by simpa using Nat.lt_of_succ_lt_succ hk
      rw [ih r m hm hcol fun j hj hjm =>
        hprev (j + 1) (by simpa using Nat.succ_lt_succ hj)
          (Nat.succ_lt_succ hjm)]
      simp

theorem raycastLoop_mem (origin direction : Vec3) :
    ∀ (objs : List SceneObject) (best : Option SceneObject) (bestD : FVal)
      (o : SceneObject),
      raycastLoop origin direction best bestD objs = some o →
      best = some o ∨ o ∈ objs := by
  intro objs
  induction objs with
  | nil => intro best bestD o h; exact Or.inl h
  | cons ohead rest ih =>
    intro best bestD o h
    rcases hh : rayIntersectsAABB ⟨origin, direction⟩ ohead.boundingBox
      with _ | hit
    · simp only [raycastLoop, hh] at h
      rcases ih best bestD o h with h1 | h2
      · exact Or.inl h1
      · exact Or.inr (List.mem_cons_of_mem _ h2)
    · simp only [raycastLoop, hh] at h
      by_cases hflt : flt (distF origin hit) bestD
      · rw [if_pos hflt] at h
        rcases ih _ _ _ h with h1 | h2
        · injection h1 with h1
          subst h1
          exact Or.inr (List.mem_cons_self _ _)
        · exact Or.inr (List.mem_cons_of_mem _ h2)
      · rw [if_neg hflt] at h
        rcases ih best bestD o h with h1 | h2
        · exact Or.inl h1
        · exact Or.inr (List.mem_cons_of_mem _ h2)

theorem updated_stale_box :
    staleObject.updateBoundingBox.boundingBox =
      ⟨⟨199 / 2, 199 / 2, 199 / 2⟩, ⟨201 / 2, 201 / 2, 201 / 2⟩⟩ := by
  simp only [staleObject, SceneObject.updateBoundingBox, orOne]
  norm_num

theorem raycast_stale_hit :
    raycast ⟨0, 0, 10⟩ ⟨0, 0, -1⟩ [staleObject] = some staleObject := by
  unfold raycast
  simp only [raycastLoop]
  rw [show staleObject.boundingBox = unitBox from rfl, slab_hit_0010]
  simp [distF_hit_0010, flt]

theorem raycast_fresh_miss :
    raycast ⟨0, 0, 10⟩ ⟨0, 0, -1⟩ [staleObject.updateBoundingBox] = none := by
  unfold raycast
  simp only [raycastLoop]
  rw [updated_stale_box]
  norm_num [rayIntersectsAABB, fdiv, fmin, fmax, flt]

/-- C9: checkCollisions is not pure with respect to the scene: it updates
the bounding box of every object it visits before testing it, stopping at
the first collision, so on a miss the whole scene is refreshed, and on a
first hit at index k exactly the first k+1 objects are refreshed while the
rest keep their previous boxes; raycast, by contrast, mutates nothing (in
this embedding it returns an element of the unchanged input scene) and
tests each object's stored bounding box as-is, so it hits a stale unit box
although the object's transform has moved far away, and misses once the
box is refreshed. -/
theorem checkCollisions_mutates_raycast_pure :
    (∀ (p : Vec3) (objs : List SceneObject) (r : ℝ),
      (checkCollisions p objs r).2 = .miss →
      (checkCollisions p objs r).1 =
        objs.map SceneObject.updateBoundingBox) ∧
    (∀ (p : Vec3) (objs : List SceneObject) (r : ℝ) (k : ℕ)
        (hk : k < objs.length),
      collides p r (objs.get ⟨k, hk⟩) →
      (∀ j (hj : j < objs.length), j < k → ¬ collides p r (objs.get ⟨j, hj⟩)) →
      (checkCollisions p objs r).1 =
        (objs.take (k + 1)).map SceneObject.updateBoundingBox ++
          objs.drop (k + 1)) ∧
    (∀ (origin direction : Vec3) (objs : List SceneObject) (o : SceneObject),
      raycast origin direction objs = some o → o ∈ objs) ∧
    (raycast ⟨0, 0, 10⟩ ⟨0, 0, -1⟩ [staleObject] = some staleObject ∧
      raycast ⟨0, 0, 10⟩ ⟨0, 0, -1⟩ [staleObject.updateBoundingBox] =
        none) := by
  refine ⟨checkCollisions_miss_map, checkCollisions_hit_prefix, ?_,
    raycast_stale_hit, raycast_fresh_miss⟩
  intro origin direction objs o h
  rcases raycastLoop_mem origin direction objs none .pinf o h with h1 | h2
  · exact absurd h1 (by simp)
  · exact h2

/-- Witness for checkCollisions_mutates_raycast_pure: in a two-object
scene whose first object collides, only the first object's bounding box is
refreshed; the second keeps its stored box. -/
theorem checkCollisions_mutates_raycast_pure_witness :
    (checkCollisions ⟨0, 0, 3⟩ [cubeObject, boxObject] (2.5 : ℝ)).1 =
      [cubeObject.updateBoundingBox, boxObject] := by
  have h := checkCollisions_mutates_raycast_pure.2.1 ⟨0, 0, 3⟩
    [cubeObject, boxObject] (2.5 : ℝ) 0 (by simp) collides_cube_003
    (fun j hj hj0 => absurd hj0 (by omega))
  simpa using h

end
